import Mathlib

/-!
Shallow embedding of the quick-music-notation core (TypeScript) in Lean 4,
together with theorems settling the frozen claims about its specification.

Modelling conventions, used throughout:
* JavaScript strings are modelled as `List Char` (`Str`); `str` injects a
  Lean string literal.
* JavaScript numbers are modelled as `Int` where the code treats them as
  integers. Fractional beat arithmetic appears twice: once as an exact-`ℚ`
  idealization (`dotLoop`, `getDurationValue`), used only inside the fragment
  metadata, whose claims never inspect the numeric values; and once as a
  faithful model of the source's IEEE-754 binary64 arithmetic (`FloatVal`,
  `roundAdd53`, `dotLoopFloat`), used for the claim that is about the
  arithmetic itself. Rational division by zero follows the Lean convention
  `x / 0 = 0`; no claim below depends on a zero denominator.
* `Record<string, string>` dictionaries are association lists.
* Class instances are immutable state records; a mutating method becomes a
  function from the old state to the result and the new state.
* Wall-clock reads (`Date.now()`, `new Date()`) become an explicit `now : Nat`
  argument.
-/

set_option autoImplicit false
set_option maxHeartbeats 1000000
set_option maxRecDepth 100000

abbrev Str := List Char

def str (s : String) : Str := s.data

/-! ## Musical data model (src/types/musical.ts) -/

inductive NoteName
  | C | D | E | F | G | A | B
deriving DecidableEq, Repr

inductive Accidental
  | sharp | flat | natural
deriving DecidableEq, Repr

inductive Duration
  | whole | half | quarter | eighth | sixteenth | thirtySecond | sixtyFourth
deriving DecidableEq, Repr

/-- `DottedDuration = { duration: Duration; dots: number }`. -/
structure DottedDuration where
  duration : Duration
  dots : Int
deriving DecidableEq, Repr

/-- The TypeScript union `Duration | DottedDuration`. -/
inductive ElemDuration
  | plain (d : Duration)
  | dotted (dd : DottedDuration)
deriving DecidableEq, Repr

inductive TupletType
  | triplet | quintuplet | sextuplet | septuplet
deriving DecidableEq, Repr

inductive BarlineStyle
  | single | double | endBar | repeatStart | repeatEnd
deriving DecidableEq, Repr

inductive KeyMode
  | major | minor
deriving DecidableEq, Repr

/-- `Note` interface; the optional `articulations`/`dynamic` fields are never
read or written by the code paths under verification and are omitted. -/
structure Note where
  pitch : Str
  duration : ElemDuration
  accidental : Option Accidental := none
  tuplet : Option TupletType := none
deriving DecidableEq, Repr

inductive MusicalElement
  | note (n : Note)
  | rest (duration : ElemDuration)
  | chord (pitches : List Str) (duration : ElemDuration)
  | barline (style : BarlineStyle)
  | timeSignature (numerator : Int) (denominator : Int)
  | keySignature (key : Str) (mode : KeyMode)
  | tempo (bpm : Int)
deriving DecidableEq, Repr

/-! ## Musical value helpers (src/utils/musical-helpers.ts) -/

/-- Character class `[A-G]` of the pitch regular expression. -/
def isPitchLetterChar (c : Char) : Bool := 'A' ≤ c && c ≤ 'G'

/-- Character class `\d` of the pitch regular expression. -/
def isDigitChar (c : Char) : Bool := '0' ≤ c && c ≤ '9'

/-- The `note as NoteName` cast after a successful `[A-G]` match; the default
branch is unreachable under the guard. -/
def noteNameOfChar : Char → NoteName
  | 'A' => .A
  | 'B' => .B
  | 'D' => .D
  | 'E' => .E
  | 'F' => .F
  | 'G' => .G
  | _ => .C

/-- `parseInt(octaveStr)` on the single digit captured by `(\d)`. -/
def digitVal (c : Char) : Nat := c.toNat - '0'.toNat

structure ParsedPitch where
  note : NoteName
  accidental : Option Accidental
  octave : Nat
deriving DecidableEq, Repr

/-- `parsePitchString`: matches `^([A-G])([#b]?)(\d)$` and splits the match
into note letter, accidental and octave; `null` on no match. -/
def parsePitchString : Str → Option ParsedPitch
  | [l, d] =>
    if isPitchLetterChar l && isDigitChar d then
      some ⟨noteNameOfChar l, none, digitVal d⟩
    else none
  | [l, a, d] =>
    if isPitchLetterChar l && (a == '#' || a == 'b') && isDigitChar d then
      some ⟨noteNameOfChar l,
            if a == '#' then some .sharp else some .flat,
            digitVal d⟩
    else none
  | _ => none

def noteNameChar : NoteName → Char
  | .C => 'C'
  | .D => 'D'
  | .E => 'E'
  | .F => 'F'
  | .G => 'G'
  | .A => 'A'
  | .B => 'B'

/-- The `accidentalStr` ternary in `formatPitch`:
`'sharp' → '#'`, `'flat' → 'b'`, anything else → `''`. -/
def accidentalChars : Option Accidental → Str
  | some .sharp => ['#']
  | some .flat => ['b']
  | _ => []

/-- `formatPitch`: the template string `` `${note}${accidentalStr}${octave}` ``. -/
def formatPitch (note : NoteName) (accidental : Option Accidental) (octave : Nat) : Str :=
  noteNameChar note :: accidentalChars accidental ++ Nat.toDigits 10 octave

def baseDurationValue : Duration → ℚ
  | .whole => 1
  | .half => 1/2
  | .quarter => 1/4
  | .eighth => 1/8
  | .sixteenth => 1/16
  | .thirtySecond => 1/32
  | .sixtyFourth => 1/64

/-- The dot loop of `getDurationValue`, idealized in exact rationals (the
binary64-faithful version is `dotLoopFloat` below): each iteration halves
`dotValue` and adds it to `value`. -/
def dotLoop : ℚ → ℚ → Nat → ℚ
  | value, _, 0 => value
  | value, dotValue, Nat.succ n => dotLoop (value + dotValue / 2) (dotValue / 2) n

/-- `getDurationValue`: base value looked up from the table, then the dot loop
runs `dots` times (`0` times for a bare `Duration`). -/
def getDurationValue : ElemDuration → ℚ
  | .plain d => dotLoop (baseDurationValue d) (baseDurationValue d) 0
  | .dotted dd => dotLoop (baseDurationValue dd.duration) (baseDurationValue dd.duration) dd.dots.toNat

/-- Truncation toward zero, the rounding of the JavaScript `%` operator. -/
def truncQ (q : ℚ) : Int := if 0 ≤ q then ⌊q⌋ else ⌈q⌉

/-- The result of `calculateFragmentDuration`, which is a template string with
two injective shapes: `` `${measures}` `` when the remainder is zero and
`` `${measures}.${remainingBeats}/${numerator}` `` otherwise. -/
inductive TotalDurationText
  | wholeMeasures (measures : Int)
  | withRemainder (measures : Int) (remainingBeats : ℚ) (numerator : Int)
deriving DecidableEq, Repr

/-- The duration occurring in a note, rest or chord element. -/
def elementDuration : MusicalElement → Option ElemDuration
  | .note n => some n.duration
  | .rest d => some d
  | .chord _ d => some d
  | _ => none

/-- `calculateFragmentDuration`: sums `getDurationValue(e) * denominator` over
notes, rests and chords, then splits into whole measures (`Math.floor`) and a
remainder (`%`). -/
def calculateFragmentDuration (elements : List MusicalElement) (numerator denominator : Int) :
    TotalDurationText :=
  let totalBeats : ℚ := elements.foldl
    (fun acc e =>
      match elementDuration e with
      | some d => acc + getDurationValue d * (denominator : ℚ)
      | none => acc) 0
  let measures : Int := ⌊totalBeats / (numerator : ℚ)⌋
  let remainingBeats : ℚ := totalBeats - (numerator : ℚ) * (truncQ (totalBeats / (numerator : ℚ)) : ℚ)
  if remainingBeats = 0 then
    .wholeMeasures measures
  else
    .withRemainder measures remainingBeats numerator

/-- `countMeasures`: number of barline elements. -/
def countMeasures (elements : List MusicalElement) : Nat :=
  (elements.filter fun e => match e with | .barline _ => true | _ => false).length

structure FragmentMetadata where
  measures : Nat
  totalDuration : TotalDurationText
deriving DecidableEq, Repr

/-- `MusicalFragment`; `id` (built from `Date.now()`) and the ISO `timestamp`
are modelled as the clock value they are derived from. -/
structure MusicalFragment where
  id : Nat
  timestamp : Nat
  timeSigNumerator : Int
  timeSigDenominator : Int
  keySigKey : Str
  keySigMode : KeyMode
  tempo : Int
  elements : List MusicalElement
  metadata : FragmentMetadata
deriving DecidableEq, Repr

/-- `createEmptyFragment` with explicit header arguments and clock. -/
def createEmptyFragment (tsNumerator tsDenominator : Int) (key : Str) (mode : KeyMode)
    (tempo : Int) (now : Nat) : MusicalFragment where
  id := now
  timestamp := now
  timeSigNumerator := tsNumerator
  timeSigDenominator := tsDenominator
  keySigKey := key
  keySigMode := mode
  tempo := tempo
  elements := []
  metadata := { measures := 0, totalDuration := .wholeMeasures 0 }

/-! ## Validation helpers (src/utils/validation.ts) -/

/-- A validation message; the code builds strings, only their presence and
identity matter, so they are modelled as structured codes. -/
inductive ValidationMessage
  | invalidPitch (pitch : Str)
  | invalidDuration
  | negativeDots
  | chordNeedsPitch
  | invalidPitchInChord (pitch : Str)
  | tsNumeratorNotPositiveInteger
  | tsDenominatorNotAllowed
deriving DecidableEq, Repr

/-- `isValidNoteName`: membership of the upper-cased name in the seven letters. -/
def isValidNoteName (name : Str) : Bool :=
  [str "C", str "D", str "E", str "F", str "G", str "A", str "B"].contains
    (name.map Char.toUpper)

/-- `isValidOctave`: an integer in `[0, 8]` (the `Number.isInteger` test is
absorbed by the `Int` model). -/
def isValidOctave (octave : Int) : Bool :=
  0 ≤ octave && octave ≤ 8

/-- `isValidDuration`: membership in the seven enumerated base durations
(always true under the typed model, written as in the source). -/
def isValidDuration (duration : Duration) : Bool :=
  [Duration.whole, .half, .quarter, .eighth, .sixteenth, .thirtySecond, .sixtyFourth].contains
    duration

/-- `isValidPitch`: same regular expression as `parsePitchString`, then
note-name and octave checks on the captured groups. -/
def isValidPitch (pitch : Str) : Bool :=
  match pitch with
  | [l, d] =>
    if isPitchLetterChar l && isDigitChar d then
      isValidNoteName [l] && isValidOctave (digitVal d)
    else false
  | [l, a, d] =>
    if isPitchLetterChar l && (a == '#' || a == 'b') && isDigitChar d then
      isValidNoteName [l] && isValidOctave (digitVal d)
    else false
  | _ => false

def baseOf : ElemDuration → Duration
  | .plain d => d
  | .dotted dd => dd.duration

/-- `validateNote`: pitch syntax, base-duration membership, and non-negative
dot count. -/
def validateNote (n : Note) : List ValidationMessage :=
  (if !isValidPitch n.pitch then [.invalidPitch n.pitch] else []) ++
  (if !isValidDuration (baseOf n.duration) then [.invalidDuration] else []) ++
  (match n.duration with
   | .dotted dd => if dd.dots < 0 then [.negativeDots] else []
   | .plain _ => [])

/-- `validateChord`: non-empty pitch list, each pitch valid, duration valid. -/
def validateChord (pitches : List Str) (duration : ElemDuration) : List ValidationMessage :=
  (if pitches.length = 0 then [.chordNeedsPitch] else []) ++
  (pitches.filterMap fun p => if !isValidPitch p then some (.invalidPitchInChord p) else none) ++
  (if !isValidDuration (baseOf duration) then [.invalidDuration] else [])

/-- `validateTimeSignature`: positive integer numerator and a denominator in
`[1, 2, 4, 8, 16, 32, 64]`. -/
def validateTimeSignature (numerator denominator : Int) : List ValidationMessage :=
  (if numerator < 1 then [.tsNumeratorNotPositiveInteger] else []) ++
  (if !([1, 2, 4, 8, 16, 32, 64] : List Int).contains denominator then
    [.tsDenominatorNotAllowed] else [])

/-- `validateMusicalElement`: dispatch on the element type; rest, barline, key
signature and tempo pass basic validation unconditionally. -/
def validateMusicalElement : MusicalElement → List ValidationMessage
  | .note n => validateNote n
  | .chord pitches duration => validateChord pitches duration
  | .timeSignature n d => validateTimeSignature n d
  | .rest _ => []
  | .barline _ => []
  | .keySignature _ _ => []
  | .tempo _ => []

structure CanAddResult where
  valid : Bool
  reason : Option Str := none
deriving DecidableEq, Repr

/-- `canAddElementToFragment`: time and key signatures are rejected once a
note or rest is already present. -/
def canAddElementToFragment (element : MusicalElement) (currentElements : List MusicalElement) :
    CanAddResult :=
  match element with
  | .timeSignature _ _ | .keySignature _ _ =>
    if currentElements.any fun e => match e with
        | .note _ => true
        | .rest _ => true
        | _ => false then
      { valid := false, reason := some (str "Time and key signatures should be placed before notes") }
    else { valid := true }
  | _ => { valid := true }

/-! ## Pitch parse/format round trip -/

/-- The claim's pitch language `[A-G][#b]?[0-8]`, as a matcher on strings. -/
def specPitchPattern : Str → Bool
  | [l, d] =>
    (['A', 'B', 'C', 'D', 'E', 'F', 'G'] : Str).contains l &&
    (['0', '1', '2', '3', '4', '5', '6', '7', '8'] : Str).contains d
  | [l, a, d] =>
    (['A', 'B', 'C', 'D', 'E', 'F', 'G'] : Str).contains l &&
    (a == '#' || a == 'b') &&
    (['0', '1', '2', '3', '4', '5', '6', '7', '8'] : Str).contains d
  | _ => false

theorem specLetter_facts (l : Char)
    (h : (['A', 'B', 'C', 'D', 'E', 'F', 'G'] : Str).contains l = true) :
    isPitchLetterChar l = true ∧ noteNameChar (noteNameOfChar l) = l := by
  simp only [List.contains_eq_any_beq, List.any_cons, List.any_nil, Bool.or_false,
    Bool.or_eq_true, beq_iff_eq] at h
  rcases h with rfl | rfl | rfl | rfl | rfl | rfl | rfl <;> exact ⟨rfl, rfl⟩

theorem specOct_facts (d : Char)
    (h : (['0', '1', '2', '3', '4', '5', '6', '7', '8'] : Str).contains d = true) :
    isDigitChar d = true ∧ Nat.toDigits 10 (digitVal d) = [d] ∧ digitVal d ≤ 8 := by
  simp only [List.contains_eq_any_beq, List.any_cons, List.any_nil, Bool.or_false,
    Bool.or_eq_true, beq_iff_eq] at h
  rcases h with rfl | rfl | rfl | rfl | rfl | rfl | rfl | rfl | rfl <;>
    exact ⟨rfl, rfl, by decide⟩

/-- C4: for every pitch string `p` matching `[A-G][#b]?[0-8]`,
`parsePitchString p` succeeds, and `formatPitch` applied to the parsed note,
accidental and octave returns `p` exactly. -/
theorem c4_parse_format_roundtrip (p : Str) (h : specPitchPattern p = true) :
    ∃ r : ParsedPitch, parsePitchString p = some r ∧
      formatPitch r.note r.accidental r.octave = p := by
  match p with
  | [] | [_] => simp [specPitchPattern] at h
  | [l, d] =>
    simp only [specPitchPattern, Bool.and_eq_true] at h
    obtain ⟨hl, hd⟩ := h
    obtain ⟨hl1, hl2⟩ := specLetter_facts l hl
    obtain ⟨hd1, hd2, -⟩ := specOct_facts d hd
    refine ⟨⟨noteNameOfChar l, none, digitVal d⟩, ?_, ?_⟩
    · simp [parsePitchString, hl1, hd1]
    · simp [formatPitch, accidentalChars, hl2, hd2]
  | [l, a, d] =>
    simp only [specPitchPattern, Bool.and_eq_true] at h
    obtain ⟨⟨hl, ha⟩, hd⟩ := h
    obtain ⟨hl1, hl2⟩ := specLetter_facts l hl
    obtain ⟨hd1, hd2, -⟩ := specOct_facts d hd
    refine ⟨⟨noteNameOfChar l, if a == '#' then some .sharp else some .flat, digitVal d⟩, ?_, ?_⟩
    · simp [parsePitchString, hl1, hd1, ha]
    · rcases Bool.or_eq_true _ _ |>.mp ha with ha' | ha' <;>
        rw [beq_iff_eq] at ha' <;> subst ha' <;>
        simp [formatPitch, accidentalChars, hl2, hd2]
  | _ :: _ :: _ :: _ :: _ => simp [specPitchPattern] at h

/-- Witness for `c4_parse_format_roundtrip` at the concrete pitch string
`"F#5"`. -/
theorem c4_parse_format_roundtrip_witness :
    specPitchPattern (str "F#5") = true ∧
    ∃ r : ParsedPitch, parsePitchString (str "F#5") = some r ∧
      formatPitch r.note r.accidental r.octave = str "F#5" :=
  ⟨by decide, c4_parse_format_roundtrip (str "F#5") (by decide)⟩

/-! ## Dotted duration value in binary64

The source computes `getDurationValue` on IEEE-754 doubles. A finite positive
double is `m · 2^e` with significand `m ∈ [2^52, 2^53)`; halving shifts the
exponent (exact at these magnitudes), and addition rounds the exact sum to 53
significant bits, nearest, ties to even. The exponent here is unbounded,
which is output-faithful for this loop: the running value saturates long
before the source's `dotValue` could underflow, and a subnormal or zero
`dotValue` contributes nothing to the rounded sum either way. -/

structure FloatVal where
  m : Nat
  e : Int
deriving DecidableEq, Repr

/-- Number of binary digits, driven by a fuel argument so that it reduces in
the kernel. -/
def bitLenFuel : Nat → Nat → Nat
  | 0, _ => 0
  | fuel + 1, n => if n = 0 then 0 else bitLenFuel fuel (n / 2) + 1

def bitLen (n : Nat) : Nat := bitLenFuel n n

/-- Round a significand: quotient `q` with remainder `r` of the discarded
`shift` low bits (`half` is the midpoint weight), to nearest, ties to even. -/
def roundedSig (q r half : Nat) : Nat :=
  if r < half then q
  else if half < r then q + 1
  else if q % 2 = 0 then q else q + 1

/-- Round the exact value `M · 2^e` to 53 significant bits, nearest, ties to
even, normalizing the significand into `[2^52, 2^53)`. -/
def roundAdd53 (M : Nat) (e : Int) : FloatVal :=
  let L := bitLen M
  if L ≤ 53 then
    { m := M * 2 ^ (53 - L), e := e - ((53 : Int) - (L : Int)) }
  else
    let shift := L - 53
    let rounded := roundedSig (M / 2 ^ shift) (M % 2 ^ shift) (2 ^ (shift - 1))
    if rounded = 2 ^ 53 then { m := 2 ^ 52, e := e + (shift : Int) + 1 }
    else { m := rounded, e := e + (shift : Int) }

/-- Binary64 addition of two nonnegative values. -/
def addFloat (a b : FloatVal) : FloatVal :=
  if a.m = 0 then b
  else if b.m = 0 then a
  else if b.e ≤ a.e then
    roundAdd53 (a.m * 2 ^ (a.e - b.e).toNat + b.m) b.e
  else
    roundAdd53 (b.m * 2 ^ (b.e - a.e).toNat + a.m) a.e

/-- `dotValue /= 2`: exact in binary64 away from the subnormal range. -/
def halveFloat (a : FloatVal) : FloatVal := { a with e := a.e - 1 }

/-- The rational value a float denotes. -/
def toRat (f : FloatVal) : ℚ := (f.m : ℚ) * (2 : ℚ) ^ f.e

/-- The binary64 exponent of each base duration value (each base value is a
power of two, so its significand is `2^52`). -/
def baseExp : Duration → Int
  | .whole => 0 - 52
  | .half => -1 - 52
  | .quarter => -2 - 52
  | .eighth => -3 - 52
  | .sixteenth => -4 - 52
  | .thirtySecond => -5 - 52
  | .sixtyFourth => -6 - 52

def baseDurationFloat (d : Duration) : FloatVal := { m := 2 ^ 52, e := baseExp d }

/-- The dot loop of `getDurationValue` in binary64: `dotValue /= 2`, then
`value += dotValue` with the addition rounded to nearest, ties to even. -/
def dotLoopFloat : FloatVal → FloatVal → Nat → FloatVal
  | value, _, 0 => value
  | value, dotValue, Nat.succ n =>
      dotLoopFloat (addFloat value (halveFloat dotValue)) (halveFloat dotValue) n

/-- `getDurationValue` as the source computes it, in binary64. -/
def getDurationValueFloat : ElemDuration → FloatVal
  | .plain d => dotLoopFloat (baseDurationFloat d) (baseDurationFloat d) 0
  | .dotted dd =>
      dotLoopFloat (baseDurationFloat dd.duration) (baseDurationFloat dd.duration)
        dd.dots.toNat

theorem FloatVal.eqOf (m1 m2 : Nat) (e1 e2 : Int) (hm : m1 = m2) (he : e1 = e2) :
    (⟨m1, e1⟩ : FloatVal) = ⟨m2, e2⟩ := by
  rw [hm, he]

theorem roundAdd53_shift (M : Nat) (e t : Int) :
    roundAdd53 M (e + t) =
      { m := (roundAdd53 M e).m, e := (roundAdd53 M e).e + t } := by
  unfold roundAdd53
  dsimp only
  split
  · dsimp only
    exact FloatVal.eqOf _ _ _ _ rfl (by ring)
  · split
    · try dsimp only
      exact FloatVal.eqOf _ _ _ _ rfl (by ring)
    · try dsimp only
      exact FloatVal.eqOf _ _ _ _ rfl (by ring)

theorem addFloat_shift (a b : FloatVal) (t : Int) :
    addFloat { m := a.m, e := a.e + t } { m := b.m, e := b.e + t } =
      { m := (addFloat a b).m, e := (addFloat a b).e + t } := by
  unfold addFloat
  dsimp only
  split
  · rfl
  · split
    · rfl
    · by_cases hab : b.e ≤ a.e
      · rw [if_pos (show b.e + t ≤ a.e + t by omega), if_pos hab]
        have harg : a.e + t - (b.e + t) = a.e - b.e := by ring
        rw [harg]
        exact roundAdd53_shift _ _ t
      · rw [if_neg (show ¬(b.e + t ≤ a.e + t) by omega), if_neg hab]
        have harg : b.e + t - (a.e + t) = b.e - a.e := by ring
        rw [harg]
        exact roundAdd53_shift _ _ t

theorem halveFloat_shift (a : FloatVal) (t : Int) :
    halveFloat { m := a.m, e := a.e + t } =
      { m := (halveFloat a).m, e := (halveFloat a).e + t } := by
  unfold halveFloat
  dsimp only
  exact FloatVal.eqOf _ _ _ _ rfl (by ring)

/-- The float operations depend only on exponent differences, so the dot loop
commutes with a uniform exponent shift. -/
theorem dotLoopFloat_shift (n : Nat) : ∀ (v dv : FloatVal) (t : Int),
    dotLoopFloat { m := v.m, e := v.e + t } { m := dv.m, e := dv.e + t } n =
      { m := (dotLoopFloat v dv n).m, e := (dotLoopFloat v dv n).e + t } := by
  induction n with
  | zero => intro v dv t; rfl
  | succ n ih =>
    intro v dv t
    have hL : dotLoopFloat { m := v.m, e := v.e + t } { m := dv.m, e := dv.e + t } (n + 1) =
        dotLoopFloat
          (addFloat { m := v.m, e := v.e + t } (halveFloat { m := dv.m, e := dv.e + t }))
          (halveFloat { m := dv.m, e := dv.e + t }) n := rfl
    have hR : dotLoopFloat v dv (n + 1) =
        dotLoopFloat (addFloat v (halveFloat dv)) (halveFloat dv) n := rfl
    rw [hL, hR, halveFloat_shift dv t, addFloat_shift v (halveFloat dv) t]
    exact ih (addFloat v (halveFloat dv)) (halveFloat dv) t

set_option maxHeartbeats 2000000 in
/-- The loop state at the canonical exponent, checked by evaluation for every
dot count up to 52: the running value picks up one more significand bit per
dot, so every sum is exact. -/
theorem dotLoopFloat_rep_canonical :
    ∀ n : Nat, n ≤ 52 →
      dotLoopFloat ⟨2 ^ 52, -52⟩ ⟨2 ^ 52, -52⟩ n =
        ⟨(2 ^ (n + 1) - 1) * 2 ^ (52 - n), -52⟩ := by
  decide

theorem getDurationValueFloat_rep (d : Duration) (n : Nat) (h : n ≤ 52) :
    getDurationValueFloat (.dotted ⟨d, (n : Int)⟩) =
      { m := (2 ^ (n + 1) - 1) * 2 ^ (52 - n), e := baseExp d } := by
  have htoNat : ((n : Int)).toNat = n := by simp
  have hstart : getDurationValueFloat (.dotted ⟨d, (n : Int)⟩) =
      dotLoopFloat ⟨2 ^ 52, baseExp d⟩ ⟨2 ^ 52, baseExp d⟩ n := by
    show dotLoopFloat (baseDurationFloat d) (baseDurationFloat d) ((n : Int)).toNat = _
    rw [htoNat]
    rfl
  have hv : (⟨2 ^ 52, baseExp d⟩ : FloatVal) =
      { m := (⟨2 ^ 52, (-52 : Int)⟩ : FloatVal).m,
        e := (⟨2 ^ 52, (-52 : Int)⟩ : FloatVal).e + (baseExp d + 52) } := by
    dsimp only
    exact FloatVal.eqOf _ _ _ _ rfl (by ring)
  rw [hstart, hv, dotLoopFloat_shift n ⟨2 ^ 52, -52⟩ ⟨2 ^ 52, -52⟩ (baseExp d + 52),
    dotLoopFloat_rep_canonical n h]
  dsimp only
  exact FloatVal.eqOf _ _ _ _ rfl (by ring)

theorem toRat_rep (n : Nat) (h : n ≤ 52) (E : Int) :
    toRat ⟨(2 ^ (n + 1) - 1) * 2 ^ (52 - n), E⟩ =
      toRat ⟨2 ^ 52, E⟩ * (2 - (1/2 : ℚ) ^ n) := by
  unfold toRat
  have h1 : (1 : ℕ) ≤ 2 ^ (n + 1) := Nat.one_le_two_pow
  push_cast [h1]
  rw [pow_sub₀ (2 : ℚ) two_ne_zero h]
  have h2 : (2 : ℚ) ^ n ≠ 0 := pow_ne_zero n two_ne_zero
  field_simp
  ring

theorem toRat_pow2 (E : Int) : toRat ⟨2 ^ 52, E⟩ = (2 : ℚ) ^ ((52 : Int) + E) := by
  unfold toRat
  rw [zpow_add₀ (two_ne_zero : (2 : ℚ) ≠ 0) 52 E]
  norm_num

/-- C8 counterexample: at base duration `whole` and dot count 53 the binary64
addition rounds (the exact sum `2 - 2⁻⁵³` is the midpoint of two adjacent
doubles and ties to even, i.e. to `2.0`), so the program returns `2`, not
`base · (2 - 2⁻⁵³)`: the claim fails at this input. -/
theorem c8_counterexample :
    getDurationValueFloat (.dotted ⟨.whole, (53 : Int)⟩) = { m := 2 ^ 52, e := -51 } ∧
    toRat (getDurationValueFloat (.dotted ⟨.whole, (53 : Int)⟩)) = 2 ∧
    toRat (getDurationValueFloat (.dotted ⟨.whole, (53 : Int)⟩)) ≠
      toRat (getDurationValueFloat (.plain .whole)) * (2 - (1/2 : ℚ) ^ (53 : Nat)) := by
  have hrep : getDurationValueFloat (.dotted ⟨.whole, (53 : Int)⟩) =
      { m := 2 ^ 52, e := -51 } := by decide
  have hbase : getDurationValueFloat (.plain .whole) = { m := 2 ^ 52, e := 0 - 52 } := rfl
  refine ⟨hrep, ?_, ?_⟩
  · rw [hrep, toRat_pow2]
    norm_num
  · rw [hrep, hbase, toRat_pow2, toRat_pow2]
    norm_num

/-- C8 (amended): for every base duration `d` and every dot count `n ≤ 52`
all intermediate sums of the dot loop are exactly representable in binary64,
so `getDurationValue {duration := d, dots := n}` equals
`getDurationValue d * (2 - 2⁻ⁿ)`, and dot count `0` gives exactly the bare
base value. (From `n = 53` on the addition rounds and the value saturates at
twice the base — see `c8_counterexample`.) -/
theorem c8_dotted_duration_value (d : Duration) (n : Nat) (h : n ≤ 52) :
    toRat (getDurationValueFloat (.dotted ⟨d, (n : Int)⟩)) =
      toRat (getDurationValueFloat (.plain d)) * (2 - (1/2 : ℚ) ^ n) ∧
    getDurationValueFloat (.dotted ⟨d, 0⟩) = getDurationValueFloat (.plain d) := by
  constructor
  · rw [getDurationValueFloat_rep d n h]
    have hbase : getDurationValueFloat (.plain d) = ⟨2 ^ 52, baseExp d⟩ := rfl
    rw [hbase, toRat_rep n h]
  · rfl

/-- Witness for `c8_dotted_duration_value` at a dotted quarter. -/
theorem c8_dotted_duration_value_witness :
    (1 : Nat) ≤ 52 ∧
    toRat (getDurationValueFloat (.dotted ⟨.quarter, (1 : Int)⟩)) =
      toRat (getDurationValueFloat (.plain .quarter)) * (2 - (1/2 : ℚ) ^ (1 : Nat)) :=
  ⟨by decide, (c8_dotted_duration_value .quarter 1 (by decide)).1⟩

/-! ## Octave-9 acceptance asymmetry -/

/-- C10: `parsePitchString` accepts any decimal digit as the octave: for every
note letter, optionally followed by `#` or `b`, the string with octave digit
`9` parses to a result with octave `9`, while `isValidPitch` rejects the same
string. -/
theorem c10_parse_octave9_but_invalid (L : NoteName) (acc : Option Accidental) :
    ∃ r : ParsedPitch,
      parsePitchString (noteNameChar L :: accidentalChars acc ++ ['9']) = some r ∧
      r.octave = 9 ∧
      isValidPitch (noteNameChar L :: accidentalChars acc ++ ['9']) = false := by
  cases L <;> rcases acc with _ | (_ | _ | _) <;> decide

/-! ## Fragment Manager (src/core/FragmentManager.ts) -/

inductive HistAction
  | add | delete | clear | modify
deriving DecidableEq, Repr

structure FragmentHistoryEntry where
  fragment : MusicalFragment
  timestamp : Nat
  action : HistAction
deriving DecidableEq, Repr

structure FragmentManager where
  currentFragment : MusicalFragment
  history : List FragmentHistoryEntry
  historyIndex : Int
  maxHistorySize : Nat
  committedFragments : List MusicalFragment
deriving DecidableEq, Repr

inductive AddElementError
  | validationFailed (errors : List ValidationMessage)
  | cannotAdd (reason : Option Str)
deriving DecidableEq, Repr

structure AddElementResult where
  success : Bool
  error : Option AddElementError := none
deriving DecidableEq, Repr

namespace FragmentManager

/-- `saveToHistory`: drop any history after the cursor, push a snapshot of the
current fragment, advance the cursor, then evict the oldest entry (and
decrement the cursor) if the size bound is exceeded. -/
def saveToHistory (action : HistAction) (now : Nat) (s : FragmentManager) : FragmentManager :=
  let history :=
    if s.historyIndex < (s.history.length : Int) - 1 then
      s.history.take (s.historyIndex + 1).toNat
    else s.history
  let entry : FragmentHistoryEntry :=
    { fragment := s.currentFragment, timestamp := now, action := action }
  let history := history ++ [entry]
  let historyIndex := s.historyIndex + 1
  if (history.length : Int) > (s.maxHistorySize : Int) then
    { s with history := history.drop 1, historyIndex := historyIndex - 1 }
  else
    { s with history := history, historyIndex := historyIndex }

/-- `getCurrentFragment`: returns a copy of the working fragment; the value
model returns the fragment value itself (the element-object aliasing that the
copy preserves is modelled separately below for claim C3). -/
def getCurrentFragment (s : FragmentManager) : MusicalFragment := s.currentFragment

/-- `updateMetadata`: recompute measure count and total duration. -/
def updateMetadata (s : FragmentManager) : FragmentManager :=
  { s with currentFragment := { s.currentFragment with metadata :=
      { measures := countMeasures s.currentFragment.elements,
        totalDuration := calculateFragmentDuration s.currentFragment.elements
          s.currentFragment.timeSigNumerator s.currentFragment.timeSigDenominator } } }

/-- `addElement`: validate, check placement, then append, recompute metadata
and snapshot into history; the failure paths return before any mutation. -/
def addElement (element : MusicalElement) (now : Nat) (s : FragmentManager) :
    AddElementResult × FragmentManager :=
  let validationErrors := validateMusicalElement element
  if validationErrors.length > 0 then
    ({ success := false, error := some (.validationFailed validationErrors) }, s)
  else
    let canAdd := canAddElementToFragment element s.currentFragment.elements
    if !canAdd.valid then
      ({ success := false, error := some (.cannotAdd canAdd.reason) }, s)
    else
      let s := { s with currentFragment :=
        { s.currentFragment with elements := s.currentFragment.elements ++ [element] } }
      let s := updateMetadata s
      ({ success := true }, saveToHistory .add now s)

/-- `deleteLastElement`: pop the tail; `null` on an empty fragment. -/
def deleteLastElement (now : Nat) (s : FragmentManager) :
    Option MusicalElement × FragmentManager :=
  if s.currentFragment.elements.length = 0 then (none, s)
  else
    let deleted := s.currentFragment.elements.getLast?
    let s := { s with currentFragment :=
      { s.currentFragment with elements := s.currentFragment.elements.dropLast } }
    let s := updateMetadata s
    (deleted, saveToHistory .delete now s)

/-- `clear`: replace the working fragment with a fresh empty one that keeps
the header settings, and snapshot. -/
def clear (now : Nat) (s : FragmentManager) : FragmentManager :=
  let f := s.currentFragment
  saveToHistory .clear now { s with currentFragment :=
    (createEmptyFragment f.timeSigNumerator f.timeSigDenominator f.keySigKey f.keySigMode
      f.tempo now) }

/-- `undo`: refuse at the lower boundary, otherwise step the cursor back and
replace the working fragment with the snapshot there. An out-of-range history
access (unreachable under the manager invariant; the JavaScript code would
throw on it) is modelled as leaving the fragment unchanged. -/
def undo (s : FragmentManager) : Bool × FragmentManager :=
  if s.historyIndex ≤ 0 then (false, s)
  else
    let historyIndex := s.historyIndex - 1
    match s.history.get? historyIndex.toNat with
    | some entry =>
      (true, { s with historyIndex := historyIndex, currentFragment := entry.fragment })
    | none => (true, { s with historyIndex := historyIndex })

/-- `redo`: refuse at the upper boundary, otherwise step the cursor forward
and replace the working fragment with the snapshot there. -/
def redo (s : FragmentManager) : Bool × FragmentManager :=
  if s.historyIndex ≥ (s.history.length : Int) - 1 then (false, s)
  else
    let historyIndex := s.historyIndex + 1
    match s.history.get? historyIndex.toNat with
    | some entry =>
      (true, { s with historyIndex := historyIndex, currentFragment := entry.fragment })
    | none => (true, { s with historyIndex := historyIndex })

def canUndo (s : FragmentManager) : Bool := s.historyIndex > 0

def canRedo (s : FragmentManager) : Bool := s.historyIndex < (s.history.length : Int) - 1

/-- `commit`: stamp a fresh timestamp on a copy, push it onto the committed
list, reset the working fragment (keeping header settings) and reset history
to a single snapshot of the new empty fragment. The empty check lives in the
orchestrator (`NotationCapture.commit`), not here. -/
def commit (now : Nat) (s : FragmentManager) : MusicalFragment × FragmentManager :=
  let committed := { getCurrentFragment s with timestamp := now }
  let s := { s with committedFragments := s.committedFragments ++ [committed] }
  let f := s.currentFragment
  let s := { s with
    currentFragment :=
      createEmptyFragment f.timeSigNumerator f.timeSigDenominator f.keySigKey f.keySigMode
        f.tempo now,
    history := [],
    historyIndex := -1 }
  (committed, saveToHistory .clear now s)

def getCommittedFragments (s : FragmentManager) : List MusicalFragment :=
  s.committedFragments

def setTimeSignature (numerator denominator : Int) (now : Nat) (s : FragmentManager) :
    FragmentManager :=
  let s := { s with currentFragment := { s.currentFragment with
    timeSigNumerator := numerator, timeSigDenominator := denominator } }
  saveToHistory .modify now (updateMetadata s)

def setKeySignature (key : Str) (mode : KeyMode) (now : Nat) (s : FragmentManager) :
    FragmentManager :=
  saveToHistory .modify now
    { s with currentFragment := { s.currentFragment with keySigKey := key, keySigMode := mode } }

def setTempo (bpm : Int) (now : Nat) (s : FragmentManager) : FragmentManager :=
  saveToHistory .modify now { s with currentFragment := { s.currentFragment with tempo := bpm } }

def isEmpty (s : FragmentManager) : Bool := s.currentFragment.elements.length == 0

def getElementCount (s : FragmentManager) : Nat := s.currentFragment.elements.length

/-- The `FragmentManager` constructor: empty fragment with the given header
settings, then one initial `clear` snapshot (source defaults: history size 20,
4/4, C major, tempo 120). -/
def init (maxHistorySize : Nat) (tsNumerator tsDenominator : Int) (key : Str) (mode : KeyMode)
    (tempo : Int) (now : Nat) : FragmentManager :=
  saveToHistory .clear now
    { currentFragment := createEmptyFragment tsNumerator tsDenominator key mode tempo now,
      history := [],
      historyIndex := -1,
      maxHistorySize := maxHistorySize,
      committedFragments := [] }

end FragmentManager

/-- The public mutating operations of the Fragment Manager, for quantifying
over operation sequences. -/
inductive MgrOp
  | addElement (e : MusicalElement)
  | deleteLastElement
  | clear
  | undo
  | redo
  | commit
  | setTimeSignature (numerator denominator : Int)
  | setKeySignature (key : Str) (mode : KeyMode)
  | setTempo (bpm : Int)

/-- Run one operation at clock value `now`, keeping only the state. -/
def runOp (op : MgrOp) (now : Nat) (s : FragmentManager) : FragmentManager :=
  match op with
  | .addElement e => (FragmentManager.addElement e now s).2
  | .deleteLastElement => (FragmentManager.deleteLastElement now s).2
  | .clear => FragmentManager.clear now s
  | .undo => (FragmentManager.undo s).2
  | .redo => (FragmentManager.redo s).2
  | .commit => (FragmentManager.commit now s).2
  | .setTimeSignature n d => FragmentManager.setTimeSignature n d now s
  | .setKeySignature k m => FragmentManager.setKeySignature k m now s
  | .setTempo bpm => FragmentManager.setTempo bpm now s

/-- Run a sequence of operations, each paired with its clock value. -/
def runOps (ops : List (MgrOp × Nat)) (s : FragmentManager) : FragmentManager :=
  ops.foldl (fun s p => runOp p.1 p.2 s) s

/-! ## Failed adds leave the manager untouched -/

/-- C5: if `addElement e` reports failure, the whole manager state — in
particular the working fragment's element sequence, its metadata, and the
undo history — is exactly what it was before the call; no history entry is
created. -/
theorem c5_failed_add_frame (s : FragmentManager) (e : MusicalElement) (now : Nat)
    (h : (FragmentManager.addElement e now s).1.success = false) :
    (FragmentManager.addElement e now s).2 = s ∧
    (FragmentManager.addElement e now s).2.currentFragment.elements =
      s.currentFragment.elements ∧
    (FragmentManager.addElement e now s).2.currentFragment.metadata =
      s.currentFragment.metadata ∧
    (FragmentManager.addElement e now s).2.history = s.history ∧
    (FragmentManager.addElement e now s).2.historyIndex = s.historyIndex := by
  have hstate : (FragmentManager.addElement e now s).2 = s := by
    by_cases hv : (validateMusicalElement e).length > 0
    · simp [FragmentManager.addElement, hv]
    · by_cases hc : (canAddElementToFragment e s.currentFragment.elements).valid
      · simp [FragmentManager.addElement, hv, hc] at h
      · simp [FragmentManager.addElement, hv, hc]
  exact ⟨hstate, by rw [hstate], by rw [hstate], by rw [hstate], by rw [hstate]⟩

/-- The concrete manager used by the C5 witness: a fresh default manager with
one quarter note `C4` successfully added. -/
def c5state : FragmentManager :=
  (FragmentManager.addElement
    (.note { pitch := str "C4", duration := .plain .quarter }) 1
    (FragmentManager.init 20 4 4 (str "C") .major 120 0)).2

/-- Witness for `c5_failed_add_frame`: adding a time signature after a note is
rejected and leaves the state unchanged. -/
theorem c5_failed_add_frame_witness :
    (FragmentManager.addElement (.timeSignature 3 4) 2 c5state).1.success = false ∧
    (FragmentManager.addElement (.timeSignature 3 4) 2 c5state).2 = c5state :=
  ⟨by decide, (c5_failed_add_frame c5state (.timeSignature 3 4) 2 (by decide)).1⟩

/-! ## Undo/redo behaviour -/

theorem addElement_success_eq (e : MusicalElement) (now : Nat) (t : FragmentManager)
    (h : (FragmentManager.addElement e now t).1.success = true) :
    (FragmentManager.addElement e now t).2 =
      FragmentManager.saveToHistory .add now (FragmentManager.updateMetadata
        { t with currentFragment :=
          { t.currentFragment with elements := t.currentFragment.elements ++ [e] } }) := by
  by_cases hv : (validateMusicalElement e).length > 0
  · simp [FragmentManager.addElement, hv] at h
  · by_cases hc : (canAddElementToFragment e t.currentFragment.elements).valid
    · simp [FragmentManager.addElement, hv, hc]
    · simp [FragmentManager.addElement, hv, hc] at h

theorem saveToHistory_no_evict (action : HistAction) (now : Nat) (s : FragmentManager)
    (h0 : 0 ≤ s.historyIndex) (h1 : s.historyIndex < (s.history.length : Int))
    (h2 : s.historyIndex + 2 ≤ (s.maxHistorySize : Int)) :
    FragmentManager.saveToHistory action now s =
      { s with
        history := s.history.take (s.historyIndex + 1).toNat ++
          [{ fragment := s.currentFragment, timestamp := now, action := action }],
        historyIndex := s.historyIndex + 1 } := by
  unfold FragmentManager.saveToHistory
  split
  · next htr =>
    have hlen : (s.history.take (s.historyIndex + 1).toNat).length =
        (s.historyIndex + 1).toNat := by
      rw [List.length_take]
      omega
    dsimp only
    split
    · next hev =>
      exfalso
      rw [List.length_append, hlen] at hev
      simp only [List.length_cons, List.length_nil] at hev
      omega
    · next hev => rfl
  · next htr =>
    have htake : s.history.take (s.historyIndex + 1).toNat = s.history :=
      List.take_of_length_le (by omega)
    dsimp only
    split
    · next hev =>
      exfalso
      rw [List.length_append] at hev
      simp only [List.length_cons, List.length_nil] at hev
      omega
    · next hev =>
      rw [htake]

theorem saveToHistory_cursor_top (action : HistAction) (now : Nat) (s : FragmentManager)
    (h : -1 ≤ s.historyIndex) :
    ((FragmentManager.saveToHistory action now s).history.length : Int) - 1 ≤
      (FragmentManager.saveToHistory action now s).historyIndex := by
  unfold FragmentManager.saveToHistory
  split
  · next htr =>
    have hlen : (s.history.take (s.historyIndex + 1).toNat).length =
        min (s.historyIndex + 1).toNat s.history.length := List.length_take _ _
    dsimp only
    split
    · next hev =>
      simp only [List.length_drop, List.length_append, hlen, List.length_cons,
        List.length_nil]
      omega
    · next hev =>
      simp only [List.length_append, hlen, List.length_cons, List.length_nil]
      omega
  · next htr =>
    dsimp only
    split
    · next hev =>
      simp only [List.length_drop, List.length_append, List.length_cons, List.length_nil]
      omega
    · next hev =>
      simp only [List.length_append, List.length_cons, List.length_nil]
      omega

theorem undo_step (s : FragmentManager) (hpos : 0 < s.historyIndex)
    (en : FragmentHistoryEntry) (hen : s.history.get? (s.historyIndex - 1).toNat = some en) :
    FragmentManager.undo s =
      (true, { s with historyIndex := s.historyIndex - 1, currentFragment := en.fragment }) := by
  unfold FragmentManager.undo
  rw [if_neg (by omega)]
  dsimp only
  rw [hen]

theorem redo_step (s : FragmentManager) (hlt : s.historyIndex < (s.history.length : Int) - 1)
    (en : FragmentHistoryEntry) (hen : s.history.get? (s.historyIndex + 1).toNat = some en) :
    FragmentManager.redo s =
      (true, { s with historyIndex := s.historyIndex + 1, currentFragment := en.fragment }) := by
  unfold FragmentManager.redo
  rw [if_neg (by omega)]
  dsimp only
  rw [hen]

/-- C6: after one successful `addElement` (from a state satisfying the
manager's history invariants, with room in the bounded history), `undo`
succeeds and restores the element count to the pre-add value, and `redo`
restores the post-add count; any successful `addElement` truncates redo
availability, so a following `redo()` returns `false`; and `undo()`/`redo()`
at a history boundary return `false` without changing the state. -/
theorem c6_linear_undo_redo (s : FragmentManager) (e : MusicalElement) (now : Nat)
    (hsucc : (FragmentManager.addElement e now s).1.success = true)
    (hinv0 : 0 ≤ s.historyIndex)
    (hinv1 : s.historyIndex < (s.history.length : Int))
    (hcap : s.historyIndex + 2 ≤ (s.maxHistorySize : Int))
    (hsnap : ∃ en, s.history.get? s.historyIndex.toNat = some en ∧
      en.fragment.elements.length = s.currentFragment.elements.length) :
    (FragmentManager.undo (FragmentManager.addElement e now s).2).1 = true ∧
    (FragmentManager.undo
      (FragmentManager.addElement e now s).2).2.currentFragment.elements.length =
      s.currentFragment.elements.length ∧
    (FragmentManager.redo
      (FragmentManager.undo (FragmentManager.addElement e now s).2).2).1 = true ∧
    (FragmentManager.redo
      (FragmentManager.undo
        (FragmentManager.addElement e now s).2).2).2.currentFragment.elements.length =
      s.currentFragment.elements.length + 1 ∧
    (∀ (t : FragmentManager) (e2 : MusicalElement) (now2 : Nat), -1 ≤ t.historyIndex →
      (FragmentManager.addElement e2 now2 t).1.success = true →
      (FragmentManager.redo (FragmentManager.addElement e2 now2 t).2).1 = false) ∧
    (∀ t : FragmentManager, t.historyIndex ≤ 0 → FragmentManager.undo t = (false, t)) ∧
    (∀ t : FragmentManager, (t.history.length : Int) - 1 ≤ t.historyIndex →
      FragmentManager.redo t = (false, t)) := by
  obtain ⟨en, hen, hcnt⟩ := hsnap
  have hs1 := addElement_success_eq e now s hsucc
  rw [saveToHistory_no_evict .add now
    (FragmentManager.updateMetadata { s with currentFragment :=
      { s.currentFragment with elements := s.currentFragment.elements ++ [e] } })
    hinv0 hinv1 hcap] at hs1
  set T := s.history.take (s.historyIndex + 1).toNat with hT
  have hTlen : T.length = (s.historyIndex + 1).toNat := by
    rw [hT, List.length_take]
    omega
  set E1 : FragmentHistoryEntry :=
    { fragment := (FragmentManager.updateMetadata { s with currentFragment :=
        { s.currentFragment with
          elements := s.currentFragment.elements ++ [e] } }).currentFragment,
      timestamp := now, action := .add } with hE1
  have hE1elems : E1.fragment.elements = s.currentFragment.elements ++ [e] := rfl
  -- the post-add state, spelled out
  have hs1' : (FragmentManager.addElement e now s).2 =
      { s with
        currentFragment := E1.fragment,
        history := T ++ [E1],
        historyIndex := s.historyIndex + 1 } := by
    rw [hs1]
    rfl
  -- undo after the add
  have hget1 : (T ++ [E1]).get? ((s.historyIndex + 1) - 1).toNat = some en := by
    have hx : ((s.historyIndex + 1) - 1).toNat = s.historyIndex.toNat := by omega
    rw [hx, List.get?_append (by omega), hT, List.get?_take (by omega)]
    exact hen
  have hundo := undo_step
    ({ s with
        currentFragment := E1.fragment,
        history := T ++ [E1],
        historyIndex := s.historyIndex + 1 }) (by dsimp only; omega) en hget1
  -- redo after the undo
  have hget2 : (T ++ [E1]).get? (((s.historyIndex + 1) - 1) + 1).toNat = some E1 := by
    have hx : (((s.historyIndex + 1) - 1) + 1).toNat = T.length := by omega
    rw [hx]
    exact List.get?_concat_length T E1
  have hredo := redo_step
    ({ s with
        currentFragment := en.fragment,
        history := T ++ [E1],
        historyIndex := (s.historyIndex + 1) - 1 })
    (by simp only [List.length_append, hTlen, List.length_singleton]; omega) E1 hget2
  refine ⟨?_, ?_, ?_, ?_, ?_, ?_, ?_⟩
  · rw [hs1', hundo]
  · rw [hs1', hundo]
    exact hcnt
  · rw [hs1', hundo, hredo]
  · rw [hs1', hundo, hredo]
    rw [hE1elems, List.length_append]
    rfl
  · intro t e2 now2 ht hsucc2
    rw [addElement_success_eq e2 now2 t hsucc2]
    have htop := saveToHistory_cursor_top .add now2
      (FragmentManager.updateMetadata { t with currentFragment :=
        { t.currentFragment with elements := t.currentFragment.elements ++ [e2] } }) ht
    unfold FragmentManager.redo
    rw [if_pos htop]
  · intro t ht
    unfold FragmentManager.undo
    rw [if_pos ht]
  · intro t ht
    unfold FragmentManager.redo
    rw [if_pos ht]

/-- The fresh default manager used by the C6 witness. -/
def c6state : FragmentManager := FragmentManager.init 20 4 4 (str "C") .major 120 0

/-- Witness for `c6_linear_undo_redo`: one quarter rest added to a fresh
default manager, then undone. -/
theorem c6_linear_undo_redo_witness :
    (FragmentManager.addElement (.rest (.plain .quarter)) 1 c6state).1.success = true ∧
    (FragmentManager.undo (FragmentManager.addElement (.rest (.plain .quarter)) 1 c6state).2).1 =
      true ∧
    (FragmentManager.undo
      (FragmentManager.addElement
        (.rest (.plain .quarter)) 1 c6state).2).2.currentFragment.elements.length = 0 := by
  have h := c6_linear_undo_redo c6state (.rest (.plain .quarter)) 1 (by decide) (by decide)
    (by decide) (by decide)
    ⟨{ fragment := createEmptyFragment 4 4 (str "C") .major 120 0,
       timestamp := 0, action := .clear }, by decide, by decide⟩
  exact ⟨by decide, h.1, h.2.1.trans (by decide)⟩

/-! ## History bound and cursor validity -/

/-- The C7 invariant: the cursor indexes a valid entry and the history length
respects the configured bound (which itself stays at least 1). -/
def histInv (s : FragmentManager) : Prop :=
  1 ≤ s.maxHistorySize ∧ 0 ≤ s.historyIndex ∧
  s.historyIndex < (s.history.length : Int) ∧ s.history.length ≤ s.maxHistorySize

instance (s : FragmentManager) : Decidable (histInv s) := by
  unfold histInv
  infer_instance

theorem saveToHistory_histInv (action : HistAction) (now : Nat) (s : FragmentManager)
    (hmax : 1 ≤ s.maxHistorySize) (hidx : -1 ≤ s.historyIndex)
    (hlen : s.historyIndex ≤ (s.history.length : Int) - 1)
    (hcap : s.history.length ≤ s.maxHistorySize) :
    histInv (FragmentManager.saveToHistory action now s) := by
  unfold FragmentManager.saveToHistory histInv
  split
  · next htr =>
    have hlen1 : (s.history.take (s.historyIndex + 1).toNat).length =
        (s.historyIndex + 1).toNat := by
      rw [List.length_take]
      omega
    dsimp only
    split
    · next hev =>
      rw [List.length_append, hlen1, List.length_singleton] at hev
      refine ⟨hmax, ?_, ?_, ?_⟩ <;>
        simp only [List.length_drop, List.length_append, hlen1, List.length_singleton] <;>
        omega
    · next hev =>
      rw [List.length_append, hlen1, List.length_singleton] at hev
      refine ⟨hmax, ?_, ?_, ?_⟩ <;>
        simp only [List.length_append, hlen1, List.length_singleton] <;> omega
  · next htr =>
    dsimp only
    split
    · next hev =>
      rw [List.length_append, List.length_singleton] at hev
      refine ⟨hmax, ?_, ?_, ?_⟩ <;>
        simp only [List.length_drop, List.length_append, List.length_singleton] <;> omega
    · next hev =>
      rw [List.length_append, List.length_singleton] at hev
      refine ⟨hmax, ?_, ?_, ?_⟩ <;>
        simp only [List.length_append, List.length_singleton] <;> omega

theorem saveToHistory_max (action : HistAction) (now : Nat) (s : FragmentManager) :
    (FragmentManager.saveToHistory action now s).maxHistorySize = s.maxHistorySize := by
  unfold FragmentManager.saveToHistory
  split <;> (dsimp only; split <;> rfl)

theorem runOp_histInv (op : MgrOp) (now : Nat) (s : FragmentManager) (h : histInv s) :
    histInv (runOp op now s) := by
  obtain ⟨hmax, h0, h1, h2⟩ := h
  cases op with
  | addElement e =>
    show histInv (FragmentManager.addElement e now s).2
    unfold FragmentManager.addElement
    dsimp only
    split
    · exact ⟨hmax, h0, h1, h2⟩
    · split
      · exact ⟨hmax, h0, h1, h2⟩
      · exact saveToHistory_histInv .add now _ hmax (show (-1 : Int) ≤ s.historyIndex by omega) (show s.historyIndex ≤ (s.history.length : Int) - 1 by omega) h2
  | deleteLastElement =>
    show histInv (FragmentManager.deleteLastElement now s).2
    unfold FragmentManager.deleteLastElement
    dsimp only
    split
    · exact ⟨hmax, h0, h1, h2⟩
    · exact saveToHistory_histInv .delete now _ hmax (show (-1 : Int) ≤ s.historyIndex by omega) (show s.historyIndex ≤ (s.history.length : Int) - 1 by omega) h2
  | clear =>
    exact saveToHistory_histInv .clear now _ hmax (show (-1 : Int) ≤ s.historyIndex by omega) (show s.historyIndex ≤ (s.history.length : Int) - 1 by omega) h2
  | undo =>
    show histInv (FragmentManager.undo s).2
    unfold FragmentManager.undo
    split
    · exact ⟨hmax, h0, h1, h2⟩
    · next hguard =>
      dsimp only
      split
      · refine ⟨hmax, ?_, ?_, h2⟩ <;> dsimp only <;> omega
      · refine ⟨hmax, ?_, ?_, h2⟩ <;> dsimp only <;> omega
  | redo =>
    show histInv (FragmentManager.redo s).2
    unfold FragmentManager.redo
    split
    · exact ⟨hmax, h0, h1, h2⟩
    · next hguard =>
      dsimp only
      split
      · refine ⟨hmax, ?_, ?_, h2⟩ <;> dsimp only <;> omega
      · refine ⟨hmax, ?_, ?_, h2⟩ <;> dsimp only <;> omega
  | commit =>
    show histInv (FragmentManager.commit now s).2
    refine saveToHistory_histInv .clear now _ hmax ?_ ?_ ?_ <;> dsimp only <;> simp
  | setTimeSignature n d =>
    exact saveToHistory_histInv .modify now _ hmax (show (-1 : Int) ≤ s.historyIndex by omega) (show s.historyIndex ≤ (s.history.length : Int) - 1 by omega) h2
  | setKeySignature k m =>
    exact saveToHistory_histInv .modify now _ hmax (show (-1 : Int) ≤ s.historyIndex by omega) (show s.historyIndex ≤ (s.history.length : Int) - 1 by omega) h2
  | setTempo bpm =>
    exact saveToHistory_histInv .modify now _ hmax (show (-1 : Int) ≤ s.historyIndex by omega) (show s.historyIndex ≤ (s.history.length : Int) - 1 by omega) h2

theorem runOp_max (op : MgrOp) (now : Nat) (s : FragmentManager) :
    (runOp op now s).maxHistorySize = s.maxHistorySize := by
  cases op with
  | addElement e =>
    show (FragmentManager.addElement e now s).2.maxHistorySize = _
    unfold FragmentManager.addElement
    dsimp only
    split
    · rfl
    · split
      · rfl
      · exact saveToHistory_max _ _ _
  | deleteLastElement =>
    show (FragmentManager.deleteLastElement now s).2.maxHistorySize = _
    unfold FragmentManager.deleteLastElement
    dsimp only
    split
    · rfl
    · exact saveToHistory_max _ _ _
  | clear => exact saveToHistory_max _ _ _
  | undo =>
    show (FragmentManager.undo s).2.maxHistorySize = _
    unfold FragmentManager.undo
    split
    · rfl
    · dsimp only
      split <;> rfl
  | redo =>
    show (FragmentManager.redo s).2.maxHistorySize = _
    unfold FragmentManager.redo
    split
    · rfl
    · dsimp only
      split <;> rfl
  | commit => exact saveToHistory_max _ _ _
  | setTimeSignature n d => exact saveToHistory_max _ _ _
  | setKeySignature k m => exact saveToHistory_max _ _ _
  | setTempo bpm => exact saveToHistory_max _ _ _

theorem runOps_histInv (ops : List (MgrOp × Nat)) (s : FragmentManager) (h : histInv s) :
    histInv (runOps ops s) := by
  induction ops generalizing s with
  | nil => exact h
  | cons p rest ih => exact ih _ (runOp_histInv p.1 p.2 s h)

theorem runOps_max (ops : List (MgrOp × Nat)) (s : FragmentManager) :
    (runOps ops s).maxHistorySize = s.maxHistorySize := by
  induction ops generalizing s with
  | nil => rfl
  | cons p rest ih => exact (ih _).trans (runOp_max p.1 p.2 s)

theorem init_histInv (maxHistorySize : Nat) (hmax : 1 ≤ maxHistorySize) (tsN tsD : Int)
    (key : Str) (mode : KeyMode) (tempo : Int) (now0 : Nat) :
    histInv (FragmentManager.init maxHistorySize tsN tsD key mode tempo now0) := by
  unfold FragmentManager.init
  refine saveToHistory_histInv _ _ _ ?_ ?_ ?_ ?_ <;> dsimp only <;> simp [hmax]

/-- C7: for every `maxHistorySize ≥ 1` and every sequence of Fragment Manager
operations run from a fresh manager, the history length never exceeds
`maxHistorySize` and the history cursor always indexes a valid entry
(`0 ≤ cursor < length`). -/
theorem c7_history_bound_invariant (maxHistorySize : Nat) (hmax : 1 ≤ maxHistorySize)
    (tsN tsD : Int) (key : Str) (mode : KeyMode) (tempo : Int) (now0 : Nat)
    (ops : List (MgrOp × Nat)) :
    (runOps ops (FragmentManager.init maxHistorySize tsN tsD key mode tempo
      now0)).history.length ≤ maxHistorySize ∧
    0 ≤ (runOps ops (FragmentManager.init maxHistorySize tsN tsD key mode tempo
      now0)).historyIndex ∧
    (runOps ops (FragmentManager.init maxHistorySize tsN tsD key mode tempo
      now0)).historyIndex <
      ((runOps ops (FragmentManager.init maxHistorySize tsN tsD key mode tempo
        now0)).history.length : Int) := by
  obtain ⟨hm, h0, h1, h2⟩ :=
    runOps_histInv ops _ (init_histInv maxHistorySize hmax tsN tsD key mode tempo now0)
  refine ⟨?_, h0, h1⟩
  have hinitmax :
      (FragmentManager.init maxHistorySize tsN tsD key mode tempo now0).maxHistorySize =
        maxHistorySize := by
    unfold FragmentManager.init
    rw [saveToHistory_max]
  rw [runOps_max ops (FragmentManager.init maxHistorySize tsN tsD key mode tempo now0),
    hinitmax] at h2
  exact h2

/-- Witness for `c7_history_bound_invariant`: bound 1 with an add, a clear and
an undo. -/
theorem c7_history_bound_invariant_witness :
    1 ≤ 1 ∧
    (runOps [(.addElement (.rest (.plain .quarter)), 1), (.clear, 2), (.undo, 3)]
      (FragmentManager.init 1 4 4 (str "C") .major 120 0)).history.length ≤ 1 ∧
    0 ≤ (runOps [(.addElement (.rest (.plain .quarter)), 1), (.clear, 2), (.undo, 3)]
      (FragmentManager.init 1 4 4 (str "C") .major 120 0)).historyIndex := by
  have h := c7_history_bound_invariant 1 (by decide) 4 4 (str "C") .major 120 0
    [(.addElement (.rest (.plain .quarter)), 1), (.clear, 2), (.undo, 3)]
  exact ⟨by decide, h.1, h.2.1⟩

/-! ## Shortcut Engine (src/core/ShortcutEngine.ts) -/

structure KeyMappings where
  durations : List (Str × Str)
  pitches : List (Str × Str)
  modifiers : List (Str × Str)
  controls : List (Str × Str)
  articulations : List (Str × Str)
  dynamics : List (Str × Str)
deriving DecidableEq, Repr

/-- `Record<string, string>` lookup; an absent key gives the falsy
`undefined`, modelled as `none`. -/
def lookupKey (m : List (Str × Str)) (key : Str) : Option Str :=
  (m.find? fun p => p.1 == key).map Prod.snd

/-- `DEFAULT_KEY_MAPPINGS` from src/types/config.ts (the staccato key is the
apostrophe character, written by code point). -/
def DEFAULT_KEY_MAPPINGS : KeyMappings where
  durations := [
    (str "1", str "whole"), (str "2", str "half"), (str "4", str "quarter"),
    (str "8", str "eighth"), (str "6", str "sixteenth"),
    (str "3", str "dotted-quarter"), (str "7", str "triplet-eighth")]
  pitches := [
    (str "c", str "C"), (str "d", str "D"), (str "e", str "E"), (str "f", str "F"),
    (str "g", str "G"), (str "a", str "A"), (str "b", str "B")]
  modifiers := [
    (str "shift", str "sharp"), (str "alt", str "flat"), (str "ctrl", str "chord")]
  controls := [
    (str "Enter", str "commit"), (str "Space", str "rest"), (str "Backspace", str "delete"),
    (str "Tab", str "barline"), (str "Escape", str "clear"), (str "ArrowUp", str "octave-up"),
    (str "ArrowDown", str "octave-down"), (str "0", str "octave-reset"),
    (str ".", str "add-dot"), (str "t", str "toggle-triplet"), (str "r", str "rest"),
    (str "z", str "undo"), (str "y", str "redo")]
  articulations := [
    (str ">", str "accent"), (str "^", str "marcato"), (str "~", str "trill"),
    (str "-", str "tenuto"), ([Char.ofNat 39], str "staccato")]
  dynamics := [
    (str "F1", str "pp"), (str "F2", str "p"), (str "F3", str "mp"), (str "F4", str "mf"),
    (str "F5", str "f"), (str "F6", str "ff"), (str "F7", str "fff"), (str "F8", str "ffff")]

inductive InputMode
  | CAPTURE | PAUSED | STOPPED | CHORD_MODE | ERROR
deriving DecidableEq, Repr

structure KeyboardInput where
  key : Str
  shiftKey : Bool
  altKey : Bool
  ctrlKey : Bool
  metaKey : Bool
deriving DecidableEq, Repr

inductive ControlAction
  | commit | delete | clear | undo | redo | enterChordMode
deriving DecidableEq, Repr

inductive ControlData
  | action (a : ControlAction)
  | element (e : MusicalElement)
deriving DecidableEq, Repr

inductive ModifierData
  | octave (o : Nat)
  | dotted (b : Bool)
  | triplet (b : Bool)
  | durationState (duration : Duration) (dotted triplet : Bool)
  | articulation (a : Str)
  | dynamic (d : Str)
  | chordNotes (notes : List Str)
deriving DecidableEq, Repr

/-- The engine's rejection messages, as structured codes. -/
inductive EngineError
  | notAcceptedInMode
  | unrecognizedInput
  | invalidChordNote
  | noNotesInChord
  | octaveOutOfRange
deriving DecidableEq, Repr

inductive ProcessedInput
  | note (n : Note)
  | rest (duration : ElemDuration)
  | chord (pitches : List Str) (duration : ElemDuration)
  | control (data : ControlData)
  | modifier (data : ModifierData)
  | invalid (error : EngineError)
deriving DecidableEq, Repr

/-- Whether a processed input is a chord instruction. -/
def ProcessedInput.isChordInstr : ProcessedInput → Bool
  | .chord _ _ => true
  | _ => false

structure ShortcutEngine where
  keyMappings : KeyMappings
  currentDuration : Duration := .quarter
  currentOctave : Nat := 4
  isDotted : Bool := false
  isTriplet : Bool := false
  chordNotes : List Str := []
  lastNoteTime : Nat := 0
deriving DecidableEq, Repr

/-- The unchecked `duration as Duration` cast; with any well-formed mapping the
value is one of the seven names. -/
def durationOfStr (s : Str) : Duration :=
  if s = str "whole" then .whole
  else if s = str "half" then .half
  else if s = str "quarter" then .quarter
  else if s = str "eighth" then .eighth
  else if s = str "sixteenth" then .sixteenth
  else if s = str "thirty-second" then .thirtySecond
  else .sixtyFourth

/-- The unchecked `note as NoteName` cast on a one-letter mapping value. -/
def noteNameOfStr : Str → NoteName
  | [c] => noteNameOfChar c
  | _ => .C

namespace ShortcutEngine

def getDurationWithModifiers (s : ShortcutEngine) : ElemDuration :=
  if s.isDotted then .dotted { duration := s.currentDuration, dots := 1 }
  else .plain s.currentDuration

def createNote (pitch : Str) (accidental : Option Accidental) (s : ShortcutEngine) :
    ProcessedInput :=
  .note { pitch := pitch
          duration := s.getDurationWithModifiers
          accidental := accidental
          tuplet := if s.isTriplet then some .triplet else none }

def createRest (s : ShortcutEngine) : ProcessedInput :=
  .rest s.getDurationWithModifiers

def createBarline : ProcessedInput :=
  .control (.element (.barline .single))

def completeChord (s : ShortcutEngine) : ProcessedInput × ShortcutEngine :=
  if s.chordNotes.length = 0 then (.invalid .noNotesInChord, s)
  else
    (.chord s.chordNotes s.getDurationWithModifiers, { s with chordNotes := [] })

def changeOctave (delta : Int) (s : ShortcutEngine) : ProcessedInput × ShortcutEngine :=
  let newOctave := (s.currentOctave : Int) + delta
  if 0 ≤ newOctave ∧ newOctave ≤ 8 then
    (.modifier (.octave newOctave.toNat), { s with currentOctave := newOctave.toNat })
  else (.invalid .octaveOutOfRange, s)

/-- The control-command `switch`; `undo`/`redo` without `ctrlKey` fall through
(`break` with no return) and the dispatch continues, which is `none` here. -/
def processControlCommand (input : KeyboardInput) (s : ShortcutEngine) :
    Option (ProcessedInput × ShortcutEngine) :=
  match lookupKey s.keyMappings.controls input.key with
  | none => none
  | some control =>
    if control = str "commit" then some (.control (.action .commit), s)
    else if control = str "rest" then some (s.createRest, s)
    else if control = str "delete" then some (.control (.action .delete), s)
    else if control = str "barline" then some (createBarline, s)
    else if control = str "clear" then some (.control (.action .clear), s)
    else if control = str "octave-up" then some (s.changeOctave 1)
    else if control = str "octave-down" then some (s.changeOctave (-1))
    else if control = str "octave-reset" then
      some (.modifier (.octave 4), { s with currentOctave := 4 })
    else if control = str "add-dot" then
      some (.modifier (.dotted !s.isDotted), { s with isDotted := !s.isDotted })
    else if control = str "toggle-triplet" then
      some (.modifier (.triplet !s.isTriplet), { s with isTriplet := !s.isTriplet })
    else if control = str "undo" then
      if input.ctrlKey then some (.control (.action .undo), s) else none
    else if control = str "redo" then
      if input.ctrlKey then some (.control (.action .redo), s) else none
    else none

def processDurationChange (input : KeyboardInput) (s : ShortcutEngine) :
    Option (ProcessedInput × ShortcutEngine) :=
  match lookupKey s.keyMappings.durations input.key with
  | none => none
  | some duration =>
    let s :=
      if duration = str "dotted-quarter" then
        { s with currentDuration := .quarter, isDotted := true, isTriplet := false }
      else if duration = str "triplet-eighth" then
        { s with currentDuration := .eighth, isTriplet := true, isDotted := false }
      else
        { s with currentDuration := durationOfStr duration,
                 isDotted := false, isTriplet := false }
    some (.modifier (.durationState s.currentDuration s.isDotted s.isTriplet), s)

def processArticulation (input : KeyboardInput) (s : ShortcutEngine) :
    Option (ProcessedInput × ShortcutEngine) :=
  match lookupKey s.keyMappings.articulations input.key with
  | none => none
  | some articulation => some (.modifier (.articulation articulation), s)

def processDynamic (input : KeyboardInput) (s : ShortcutEngine) :
    Option (ProcessedInput × ShortcutEngine) :=
  match lookupKey s.keyMappings.dynamics input.key with
  | none => none
  | some dynamic => some (.modifier (.dynamic dynamic), s)

/-- Pitch lookup (lower-cased); `shiftKey` wins over `altKey`; with `ctrlKey`
this is chord-mode entry: seed the chord list, stamp the time, emit the
`enter-chord-mode` control. -/
def processNoteInput (input : KeyboardInput) (now : Nat) (s : ShortcutEngine) :
    Option (ProcessedInput × ShortcutEngine) :=
  match lookupKey s.keyMappings.pitches (input.key.map Char.toLower) with
  | none => none
  | some noteLetter =>
    let note := noteNameOfStr noteLetter
    let accidental : Option Accidental :=
      if input.shiftKey then some .sharp
      else if input.altKey then some .flat
      else none
    let pitch := formatPitch note accidental s.currentOctave
    if input.ctrlKey then
      some (.control (.action .enterChordMode),
        { s with chordNotes := [pitch], lastNoteTime := now })
    else
      some (s.createNote pitch accidental, s)

/-- Chord-note accumulation: `Enter` completes; a recognized pitch key appends
a deduplicated pitch and stamps the time; anything else is rejected. -/
def processChordNote (input : KeyboardInput) (now : Nat) (s : ShortcutEngine) :
    ProcessedInput × ShortcutEngine :=
  if input.key = str "Enter" then s.completeChord
  else
    match lookupKey s.keyMappings.pitches (input.key.map Char.toLower) with
    | some noteLetter =>
      let note := noteNameOfStr noteLetter
      let accidental : Option Accidental :=
        if input.shiftKey then some .sharp
        else if input.altKey then some .flat
        else none
      let pitch := formatPitch note accidental s.currentOctave
      let s :=
        if !(s.chordNotes.contains pitch) then
          { s with chordNotes := s.chordNotes ++ [pitch] }
        else s
      let s := { s with lastNoteTime := now }
      (.modifier (.chordNotes s.chordNotes), s)
    | none => (.invalid .invalidChordNote, s)

/-- `processKeyInput`: the ordered dispatch of the engine. Control commands
are tried before the chord-mode path. -/
def processKeyInput (input : KeyboardInput) (mode : InputMode) (now : Nat)
    (s : ShortcutEngine) : ProcessedInput × ShortcutEngine :=
  if mode = .STOPPED ∨ mode = .ERROR then (.invalid .notAcceptedInMode, s)
  else
    match s.processControlCommand input with
    | some r => r
    | none =>
      if mode = .CHORD_MODE ∧ input.ctrlKey = false then s.processChordNote input now
      else
        match s.processDurationChange input with
        | some r => r
        | none =>
          match s.processArticulation input with
          | some r => r
          | none =>
            match s.processDynamic input with
            | some r => r
            | none =>
              match s.processNoteInput input now with
              | some r => r
              | none => (.invalid .unrecognizedInput, s)

def reset (s : ShortcutEngine) : ShortcutEngine :=
  { s with currentDuration := .quarter, currentOctave := 4, isDotted := false,
           isTriplet := false, chordNotes := [] }

end ShortcutEngine

/-! ## The chord-completion key sequence -/

def c1input (k : String) (ctrl : Bool) : KeyboardInput :=
  { key := str k, shiftKey := false, altKey := false, ctrlKey := ctrl, metaKey := false }

/-- A fresh engine with the default key mappings. -/
def c1engine0 : ShortcutEngine := { keyMappings := DEFAULT_KEY_MAPPINGS }

def c1r1 : ProcessedInput × ShortcutEngine :=
  ShortcutEngine.processKeyInput (c1input "c" true) .CAPTURE 0 c1engine0

def c1r2 : ProcessedInput × ShortcutEngine :=
  ShortcutEngine.processKeyInput (c1input "e" false) .CHORD_MODE 1 c1r1.2

def c1r3 : ProcessedInput × ShortcutEngine :=
  ShortcutEngine.processKeyInput (c1input "g" false) .CHORD_MODE 2 c1r2.2

def c1r4 : ProcessedInput × ShortcutEngine :=
  ShortcutEngine.processKeyInput (c1input "Enter" false) .CHORD_MODE 3 c1r3.2

/-- C1 (what the code actually does on the claim's input): Ctrl+C enters chord
mode and E, G accumulate the chord list `["C4", "E4", "G4"]`, but the final
Enter is captured by the control-command lookup (`controls["Enter"] =
"commit"`), which `processKeyInput` consults before the chord-mode path, so
the engine emits a commit control instruction and no Chord instruction at
all. -/
theorem c1_enter_yields_commit_not_chord :
    c1r1.1 = .control (.action .enterChordMode) ∧
    c1r3.2.chordNotes = [str "C4", str "E4", str "G4"] ∧
    c1r4.1 = .control (.action .commit) ∧
    c1r4.1.isChordInstr = false := by
  refine ⟨?_, ?_, ?_, ?_⟩ <;> decide

/-! ## Capture orchestrator commit flow (src/core/NotationCapture.ts) -/

inductive CaptureEvent
  | fragmentCommitted (fragment : MusicalFragment)
  | errorEvent (code : Str) (message : Str)
  | previewUpdated (fragment : MusicalFragment)
deriving DecidableEq, Repr

/-- The orchestrator state, restricted to the parts its `commit` touches. -/
structure CaptureSession where
  mode : InputMode
  fragmentManager : FragmentManager
deriving DecidableEq, Repr

/-- The orchestrator's `commit()`: refuses an empty fragment with an
`EMPTY_FRAGMENT` error notification before touching the Fragment Manager;
otherwise commits, emits `fragmentCommitted`, awaits the injected sink (a
failing sink yields a `COMMIT_HANDLER_ERROR` notification but no rollback) and
refreshes the preview. -/
def CaptureSession.commitFlow (sinkFails : Bool) (now : Nat) (s : CaptureSession) :
    CaptureSession × List CaptureEvent :=
  if s.fragmentManager.isEmpty then
    (s, [.errorEvent (str "EMPTY_FRAGMENT") (str "Cannot commit empty fragment")])
  else
    let r := s.fragmentManager.commit now
    let events := [CaptureEvent.fragmentCommitted r.1] ++
      (if sinkFails then
        [CaptureEvent.errorEvent (str "COMMIT_HANDLER_ERROR") (str "Commit handler failed")]
      else []) ++
      [CaptureEvent.previewUpdated r.2.getCurrentFragment]
    ({ s with fragmentManager := r.2 }, events)

/-- C2: whenever commit is requested while the working fragment has zero
elements, the operation signals failure (the `EMPTY_FRAGMENT` error
notification) and changes nothing: no fragment is appended to the committed
list, no commit timestamp is stamped, the whole state is untouched. -/
theorem c2_empty_commit_rejected (s : CaptureSession) (sinkFails : Bool) (now : Nat)
    (h : s.fragmentManager.isEmpty = true) :
    CaptureSession.commitFlow sinkFails now s =
      (s, [.errorEvent (str "EMPTY_FRAGMENT") (str "Cannot commit empty fragment")]) ∧
    (CaptureSession.commitFlow sinkFails now s).1.fragmentManager.committedFragments =
      s.fragmentManager.committedFragments := by
  have h1 : CaptureSession.commitFlow sinkFails now s =
      (s, [.errorEvent (str "EMPTY_FRAGMENT") (str "Cannot commit empty fragment")]) := by
    unfold CaptureSession.commitFlow
    rw [if_pos h]
  exact ⟨h1, by rw [h1]⟩

/-- Witness for `c2_empty_commit_rejected`: a fresh (empty) default manager in
capture mode. -/
theorem c2_empty_commit_rejected_witness :
    (FragmentManager.init 20 4 4 (str "C") .major 120 0).isEmpty = true ∧
    CaptureSession.commitFlow true 5
        { mode := .CAPTURE, fragmentManager := FragmentManager.init 20 4 4 (str "C") .major 120 0 } =
      ({ mode := .CAPTURE, fragmentManager := FragmentManager.init 20 4 4 (str "C") .major 120 0 },
       [.errorEvent (str "EMPTY_FRAGMENT") (str "Cannot commit empty fragment")]) :=
  ⟨by decide,
   (c2_empty_commit_rejected
     { mode := .CAPTURE, fragmentManager := FragmentManager.init 20 4 4 (str "C") .major 120 0 }
     true 5 (by decide)).1⟩

/-! ## Configuration Manager (src/core/ConfigurationManager.ts and
src/types/config.ts) -/

inductive PreviewSize
  | small | medium | large
deriving DecidableEq, Repr

inductive Theme
  | light | dark
deriving DecidableEq, Repr

inductive ErrorRecoveryMode
  | strict | lenient
deriving DecidableEq, Repr

structure RenderingConfig where
  previewSize : PreviewSize
  showKeySignature : Bool
  showTimeSignature : Bool
  autoScroll : Bool
  highlightCurrentElement : Bool
  theme : Option Theme
deriving DecidableEq, Repr

structure BehaviorConfig where
  autoCommitDelay : Option Int
  undoHistorySize : Int
  defaultDuration : Duration
  defaultOctave : Int
  chordModeTimeout : Int
  errorRecoveryMode : ErrorRecoveryMode
  debounceDelay : Int
deriving DecidableEq, Repr

/-- The union `KeyMappings | 'default'`. -/
inductive KeyMappingsChoice
  | defaultToken
  | custom (m : KeyMappings)
deriving DecidableEq, Repr

/-- The `NotationConfig` document (three top-level sections). -/
structure FullConfig where
  keyMappings : KeyMappingsChoice
  rendering : RenderingConfig
  behavior : BehaviorConfig
deriving DecidableEq, Repr

def DEFAULT_RENDERING_CONFIG : RenderingConfig where
  previewSize := .medium
  showKeySignature := true
  showTimeSignature := true
  autoScroll := true
  highlightCurrentElement := true
  theme := some .light

def DEFAULT_BEHAVIOR_CONFIG : BehaviorConfig where
  autoCommitDelay := none
  undoHistorySize := 20
  defaultDuration := .quarter
  defaultOctave := 4
  chordModeTimeout := 2000
  errorRecoveryMode := .lenient
  debounceDelay := 50

structure ConfigurationManager where
  config : FullConfig
  customKeyMappings : List (Str × KeyMappings)
deriving DecidableEq, Repr

inductive ConfigError
  | missingKeyMappingCategory
  | invalidPreviewSize
  | undoHistorySizeTooSmall
  | defaultOctaveOutOfRange
deriving DecidableEq, Repr

namespace ConfigurationManager

def getKeyMappings (s : ConfigurationManager) : KeyMappings :=
  match s.config.keyMappings with
  | .defaultToken => DEFAULT_KEY_MAPPINGS
  | .custom m => m

def getFullConfig (s : ConfigurationManager) : FullConfig :=
  { keyMappings := .custom s.getKeyMappings
    rendering := s.config.rendering
    behavior := s.config.behavior }

/-- `validateConfig`: the required key-mapping categories are structurally
present in the typed model (the `in` checks on a `KeyMappings` record cannot
fail), preview-size enum membership, `undoHistorySize ≥ 1` and
`defaultOctave ∈ [0, 8]`; the first violation throws. -/
def validateConfig (c : FullConfig) : Except ConfigError Unit := do
  if ([PreviewSize.small, .medium, .large].contains c.rendering.previewSize) = false then
    throw .invalidPreviewSize
  if c.behavior.undoHistorySize < 1 then
    throw .undoHistorySizeTooSmall
  if c.behavior.defaultOctave < 0 ∨ c.behavior.defaultOctave > 8 then
    throw .defaultOctaveOutOfRange
  pure ()

/-- `exportConfig` is `JSON.stringify(this.getFullConfig(), null, 2)`. The
full config is plain JSON data (strings, numbers, booleans, null), on which
the stringify/parse round trip is the identity, so serialization is modelled
as the identity on the structured value. -/
def exportConfig (s : ConfigurationManager) : FullConfig := s.getFullConfig

/-- `importConfig`: parse (see `exportConfig`), validate, then replace the
whole `config`; a failure throws and leaves the prior configuration intact. -/
def importConfig (configJson : FullConfig) (s : ConfigurationManager) :
    Except ConfigError ConfigurationManager := do
  validateConfig configJson
  pure { s with config := configJson }

end ConfigurationManager

/-- C9: for every configuration state that passes validation, importing the
string produced by `exportConfig` succeeds (does not throw) and leaves the
observable configuration — the value of `getFullConfig` — identical to what
it was before the round trip. -/
theorem c9_config_import_export_roundtrip (s : ConfigurationManager)
    (h : ConfigurationManager.validateConfig (ConfigurationManager.getFullConfig s) = .ok ()) :
    ∃ s2, ConfigurationManager.importConfig (ConfigurationManager.exportConfig s) s = .ok s2 ∧
      ConfigurationManager.getFullConfig s2 = ConfigurationManager.getFullConfig s := by
  refine ⟨{ s with config := ConfigurationManager.getFullConfig s }, ?_, ?_⟩
  · unfold ConfigurationManager.importConfig ConfigurationManager.exportConfig
    rw [h]
    rfl
  · rfl

/-- The configuration manager built from the source defaults, used by the C9
witness. -/
def c9state : ConfigurationManager :=
  { config :=
      { keyMappings := .defaultToken
        rendering := DEFAULT_RENDERING_CONFIG
        behavior := DEFAULT_BEHAVIOR_CONFIG }
    customKeyMappings := [] }

/-- Witness for `c9_config_import_export_roundtrip` at the default
configuration. -/
theorem c9_config_import_export_roundtrip_witness :
    ConfigurationManager.validateConfig (ConfigurationManager.getFullConfig c9state) = .ok () ∧
    ∃ s2,
      ConfigurationManager.importConfig (ConfigurationManager.exportConfig c9state) c9state =
        .ok s2 ∧
      ConfigurationManager.getFullConfig s2 = ConfigurationManager.getFullConfig c9state :=
  ⟨rfl, c9_config_import_export_roundtrip c9state rfl⟩

/-! ## Aliasing in getCurrentFragment (claim C3)

A reference-level model of the JavaScript object graph around
`getCurrentFragment`, with identity for BOTH kinds of objects involved:
element objects live in one store addressed by `Nat`, and arrays (whose slots
hold element references) live in another. The canonical working fragment owns
one array address; each history snapshot owns its own array address
(`saveToHistory` copies the array with `[...]`), and all of these arrays hold
the same element references. -/

structure RefHeap where
  elemObjects : List MusicalElement
  arrays : List (List Nat)
deriving DecidableEq, Repr

structure ManagerRefState where
  heap : RefHeap
  currentArray : Nat
  historyArrays : List Nat
deriving DecidableEq, Repr

/-- `getCurrentFragment`'s `elements: [...this.currentFragment.elements]`:
allocate a FRESH array whose slots hold the same element references as the
canonical array, and hand its address to the caller. -/
def getCurrentFragmentAlloc (s : ManagerRefState) : ManagerRefState × Nat :=
  let contents := (s.heap.arrays.get? s.currentArray).getD []
  ({ s with heap := { s.heap with arrays := s.heap.arrays ++ [contents] } },
   s.heap.arrays.length)

/-- Array-level mutation through the array object at address `a`: push, pop,
splice, slot replacement — anything that rewrites the array's own slots. -/
def writeArray (a : Nat) (contents : List Nat) (s : ManagerRefState) : ManagerRefState :=
  { s with heap := { s.heap with arrays := s.heap.arrays.set a contents } }

/-- In-place mutation of the element object at address `addr`, through any
alias — e.g. a reference read from the returned array. -/
def writeElementObj (addr : Nat) (v : MusicalElement) (s : ManagerRefState) : ManagerRefState :=
  { s with heap := { s.heap with elemObjects := s.heap.elemObjects.set addr v } }

/-- The element sequence denoted by the array at address `a`. -/
def viewArray (s : ManagerRefState) (a : Nat) : List (Option MusicalElement) :=
  ((s.heap.arrays.get? a).getD []).map s.heap.elemObjects.get?

theorem viewArray_writeArray_ne (s : ManagerRefState) (n : Nat) (c : List Nat) (a : Nat)
    (h : n ≠ a) :
    viewArray (writeArray n c s) a = viewArray s a := by
  unfold viewArray writeArray
  dsimp only
  rw [List.get?_eq_getElem?, List.get?_eq_getElem?, List.getElem?_set_ne h]

theorem viewArray_allocExtend (s : ManagerRefState) (c : List Nat) (a : Nat)
    (h : a < s.heap.arrays.length) :
    viewArray { s with heap := { s.heap with arrays := s.heap.arrays ++ [c] } } a =
      viewArray s a := by
  unfold viewArray
  dsimp only
  rw [List.get?_append h]

theorem viewArray_writeElementObj_changes (t : ManagerRefState) (a i addr : Nat)
    (v : MusicalElement)
    (href : ((t.heap.arrays.get? a).getD []).get? i = some addr)
    (haddr : addr < t.heap.elemObjects.length)
    (hne : t.heap.elemObjects.get? addr ≠ some v) :
    viewArray (writeElementObj addr v t) a ≠ viewArray t a := by
  intro hcontra
  have h1 : (viewArray (writeElementObj addr v t) a).get? i = (viewArray t a).get? i := by
    rw [hcontra]
  have h2 : (writeElementObj addr v t).heap.arrays = t.heap.arrays := rfl
  have h3 : (writeElementObj addr v t).heap.elemObjects = t.heap.elemObjects.set addr v := rfl
  rw [viewArray, viewArray, h2, h3, List.get?_map, List.get?_map, href] at h1
  simp only [Option.map_some'] at h1
  apply hne
  rw [← Option.some.inj h1]
  show (t.heap.elemObjects.set addr v).get? addr = some v
  simp [List.get?_eq_getElem?, List.getElem?_set_self, haddr]

/-- The one-note manager state of the C3 counterexample: element object 0 is
the note; array 0 is the canonical fragment's elements array, array 1 the
history snapshot's array — both holding reference 0. -/
def c3state : ManagerRefState :=
  { heap :=
      { elemObjects := [.note { pitch := str "C4", duration := .plain .quarter }]
        arrays := [[0], [0]] }
    currentArray := 0
    historyArrays := [1] }

/-- C3 counterexample: the array returned by `getCurrentFragment` here is the
fresh array 2 with slots `[0]`, sharing element reference 0 with the
canonical array and the history snapshot's array; overwriting element
object 0 through that reference changes the canonical working fragment's
element sequence and the stored history snapshot, refuting the claim at this
concrete state. -/
theorem c3_counterexample :
    (getCurrentFragmentAlloc c3state).2 = 2 ∧
    ((getCurrentFragmentAlloc c3state).1.heap.arrays.get? 2).getD [] = [0] ∧
    viewArray (writeElementObj 0 (.note { pitch := str "D5", duration := .plain .half })
        (getCurrentFragmentAlloc c3state).1) c3state.currentArray ≠
      viewArray c3state c3state.currentArray ∧
    viewArray (writeElementObj 0 (.note { pitch := str "D5", duration := .plain .half })
        (getCurrentFragmentAlloc c3state).1) 1 ≠
      viewArray c3state 1 := by
  refine ⟨by decide, by decide, by decide, by decide⟩

/-- C3 amended: `getCurrentFragment` returns a FRESH elements array — a new
address distinct from the canonical array's — so array-level mutation of the
returned array never changes the canonical working fragment or any stored
history snapshot; but the fresh array's slots hold the same element
references as the canonical array, so writing a different value into an
element object through a reference obtained from the returned array always
changes the canonical fragment's element sequence. -/
theorem c3_amended_shared_element_objects (s : ManagerRefState)
    (hcur : s.currentArray < s.heap.arrays.length) :
    (getCurrentFragmentAlloc s).2 ≠ s.currentArray ∧
    (∀ c : List Nat,
      viewArray (writeArray (getCurrentFragmentAlloc s).2 c (getCurrentFragmentAlloc s).1)
        s.currentArray = viewArray s s.currentArray) ∧
    (∀ (c : List Nat) (h : Nat), h ∈ s.historyArrays → h < s.heap.arrays.length →
      viewArray (writeArray (getCurrentFragmentAlloc s).2 c (getCurrentFragmentAlloc s).1) h =
        viewArray s h) ∧
    (getCurrentFragmentAlloc s).1.heap.arrays.get? (getCurrentFragmentAlloc s).2 =
      some ((s.heap.arrays.get? s.currentArray).getD []) ∧
    (∀ (i addr : Nat) (v : MusicalElement),
      ((s.heap.arrays.get? s.currentArray).getD []).get? i = some addr →
      addr < s.heap.elemObjects.length →
      s.heap.elemObjects.get? addr ≠ some v →
      viewArray (writeElementObj addr v (getCurrentFragmentAlloc s).1) s.currentArray ≠
        viewArray (getCurrentFragmentAlloc s).1 s.currentArray) := by
  have hpreserve : ∀ (c : List Nat) (a : Nat), a < s.heap.arrays.length →
      viewArray (writeArray (getCurrentFragmentAlloc s).2 c (getCurrentFragmentAlloc s).1) a =
        viewArray s a := by
    intro c a ha
    have h1 := viewArray_writeArray_ne (getCurrentFragmentAlloc s).1
      (getCurrentFragmentAlloc s).2 c a (by
        show s.heap.arrays.length ≠ a
        omega)
    rw [h1]
    exact viewArray_allocExtend s ((s.heap.arrays.get? s.currentArray).getD []) a ha
  refine ⟨?_, ?_, ?_, ?_, ?_⟩
  · show s.heap.arrays.length ≠ s.currentArray
    omega
  · intro c
    exact hpreserve c s.currentArray hcur
  · intro c h _ hlen
    exact hpreserve c h hlen
  · exact List.get?_concat_length s.heap.arrays ((s.heap.arrays.get? s.currentArray).getD [])
  · intro i addr v hiaddr haddr hne
    refine viewArray_writeElementObj_changes (getCurrentFragmentAlloc s).1
      s.currentArray i addr v ?_ haddr hne
    have hrefs : ((getCurrentFragmentAlloc s).1.heap.arrays.get? s.currentArray).getD [] =
        ((s.heap.arrays.get? s.currentArray).getD []) := by
      show (((s.heap.arrays ++
        [(s.heap.arrays.get? s.currentArray).getD []]).get? s.currentArray)).getD [] = _
      rw [List.get?_append hcur]
    rw [hrefs]
    exact hiaddr

/-- Witness for `c3_amended_shared_element_objects` at the counterexample
state: the returned array is fresh (address 2, not the canonical address 0),
clearing the caller's copy leaves the canonical view unchanged, and an
element-object write through shared reference 0 changes it. -/
theorem c3_amended_shared_element_objects_witness :
    c3state.currentArray < c3state.heap.arrays.length ∧
    (getCurrentFragmentAlloc c3state).2 ≠ c3state.currentArray ∧
    viewArray
        (writeArray (getCurrentFragmentAlloc c3state).2 [] (getCurrentFragmentAlloc c3state).1)
        c3state.currentArray = viewArray c3state c3state.currentArray ∧
    viewArray (writeElementObj 0 (.note { pitch := str "D5", duration := .plain .half })
        (getCurrentFragmentAlloc c3state).1) c3state.currentArray ≠
      viewArray (getCurrentFragmentAlloc c3state).1 c3state.currentArray := by
  have h := c3_amended_shared_element_objects c3state (by decide)
  exact ⟨by decide, h.1, h.2.1 [],
    h.2.2.2.2 0 0 (.note { pitch := str "D5", duration := .plain .half })
      (by decide) (by decide) (by decide)⟩
